import Mathlib

/-!
Verification development for the googledrive-backend file/folder subsystem.

The definitions below are a shallow embedding of the handlers in
src/routes/files.js (create folder, upload file, delete entry, download URL)
over the Entry schema of src/models/File.js and the per-user storage counter
(User.storageUsed). Machine integers are modelled as Nat; the JavaScript
clamp Math.max(0, a - b) coincides with truncated Nat subtraction a - b.
Date-valued fields (deletedAt, timestamps) and mimeType are omitted: no
verified property mentions them; soft deletion is tracked by isDeleted alone.
-/

namespace GDrive

/-- Kind of a metadata entry: the enum field type of the File model
(src/models/File.js), either a file or a folder. -/
inductive EntryKind
| file
| folder
deriving DecidableEq, Repr

/-- One document of the File collection (src/models/File.js): name, kind,
materialized path, byte size (schema default 0), optional S3 key, optional
parent reference, owner, and the soft-delete flag. Ids and user ids are Nat
stand-ins for ObjectIds. -/
structure Entry where
  id : Nat
  name : String
  originalName : Option String
  kind : EntryKind
  size : Nat
  path : String
  s3Key : Option String
  parentFolder : Option Nat
  owner : Nat
  isDeleted : Bool
deriving DecidableEq, Repr

/-- Backend state: the File collection plus the per-user storageUsed counters
(an association list of pairs of user id and used bytes). -/
structure St where
  entries : List Entry
  users : List (Nat × Nat)
deriving DecidableEq, Repr

/-- File.findById: locate an entry by id; no isDeleted filter is applied,
exactly as in the delete and download handlers of src/routes/files.js. -/
def findEntry (st : St) (eid : Nat) : Option Entry :=
  st.entries.find? (fun e => e.id == eid)

/-- Lookup of a user record by id in the storage counter list. -/
def lookupUsed (u : Nat) : List (Nat × Nat) → Option Nat
| [] => none
| p :: ps => if p.1 = u then some p.2 else lookupUsed u ps

/-- user.storageUsed with the JavaScript `storageUsed or 0` default applied. -/
def usedOf (st : St) (u : Nat) : Nat :=
  (lookupUsed u st.users).getD 0

/-- Whether a user record exists (User.findById succeeds). -/
def hasUser (st : St) (u : Nat) : Bool :=
  (lookupUsed u st.users).isSome

/-- Write a new storageUsed value for user u (user.save()). -/
def setUsers (u v : Nat) : List (Nat × Nat) → List (Nat × Nat) :=
  List.map (fun p => if p.1 = u then (p.1, v) else p)

/-- State after persisting a new storageUsed value for user u. -/
def setUsed (st : St) (u v : Nat) : St :=
  { st with users := setUsers u v st.users }

/-- Matching of a character-list pattern against a string head, where the
pattern character dot matches any single character and every other pattern
character matches only itself. -/
def dotCharsMatch : List Char → List Char → Bool
| [], _ => true
| _ :: _, [] => false
| p :: ps, c :: cs => (p == '.' || p == c) && dotCharsMatch ps cs

/-- Embeds the MongoDB query operator regex anchored at the start, as built in
src/routes/files.js lines 200 and 219: the folder path is spliced into the
pattern unescaped, so a dot in the path is a regex metacharacter matching any
character. This embedding is exact for paths whose only regex metacharacter
is the dot (no other metacharacters occur in the inputs considered here). -/
def regexHeadMatch (pat s : String) : Bool :=
  dotCharsMatch pat.data s.data

/-- The filter of the childFiles query and of the cascade updateMany in the
delete handler (src/routes/files.js lines 198-202 and 216-226): same owner,
path matching the regex built from folder.path plus a slash, not deleted. -/
def inFolderScope (u : Nat) (folderPath : String) (e : Entry) : Bool :=
  decide (e.owner = u) && regexHeadMatch (folderPath ++ "/") e.path
    && decide (e.isDeleted = false)

/-- Soft-delete marker applied to one document (isDeleted := true). -/
def markEntry (e : Entry) : Entry :=
  { e with isDeleted := true }

/-- Mark every entry satisfying p as deleted (an updateMany by filter). -/
def markWhere (p : Entry → Bool) (es : List Entry) : List Entry :=
  es.map (fun e => if p e then markEntry e else e)

/-- Mark the entry with the given id as deleted (file.save() after setting
isDeleted on the document fetched by id). -/
def markById (eid : Nat) (es : List Entry) : List Entry :=
  markWhere (fun e => decide (e.id = eid)) es

/-- The File.findOne existence check used by both create handlers
(src/routes/files.js lines 78-84 and 285-291): a non-deleted sibling with the
same name, kind, parent and owner. -/
def nameCollision (st : St) (u : Nat) (par : Option Nat) (nm : String)
    (kind : EntryKind) : Bool :=
  st.entries.any (fun e =>
    decide (e.name = nm) && decide (e.kind = kind)
      && decide (e.parentFolder = par) && decide (e.owner = u)
      && decide (e.isDeleted = false))

/-- The fixed storage ceiling MAX_STORAGE of the upload handler
(src/routes/files.js line 271): 15 GiB in bytes. -/
def MAX_STORAGE : Nat := 15 * 1024 * 1024 * 1024

/-- The multer per-file size limit configured at src/routes/files.js
lines 14-23: 100 MB in bytes. -/
def MULTER_FILE_SIZE_LIMIT : Nat := 100 * 1024 * 1024

/-- Observable side-effect events of one request, used to state ordering and
blob-failure properties: metadata soft-delete writes, S3 delete calls (with
their outcome), S3 put calls, and storage-counter decrements. -/
inductive Ev
| markDeleted (eid : Nat)
| blobDelete (key : String) (ok : Bool)
| blobPut (key : String)
| quotaRelease (amount : Nat)
deriving DecidableEq, Repr

/-- Response of the delete route: 404, 403, or 200 with the updated
storageUsed value. -/
inductive DelResp
| notFound
| forbidden
| success (storageUsed : Nat)
deriving DecidableEq, Repr

/-- Response of the create-folder route: 400 validation error, 400 name
conflict, or 201 with the created folder document. -/
inductive FolderResp
| validationError
| conflict
| created (folder : Entry)
deriving DecidableEq, Repr

/-- Response of the upload handler: 400 missing file, 400 storage limit,
400 name conflict, or 201 with the created file and updated storageUsed. -/
inductive UpResp
| noFile
| quotaExceeded
| conflict
| uploaded (file : Entry) (storageUsed : Nat)
deriving DecidableEq, Repr

/-- Response of a whole upload request including the multer middleware:
either the middleware rejects the oversized file before the handler runs, or
the handler produces an UpResp. -/
inductive UpReqResp
| fileTooLarge
| handled (r : UpResp)
deriving DecidableEq, Repr

/-- Response of the download route: 404, 403, 400 for folders, or the signed
URL inputs (the S3 key) plus the original file name. -/
inductive DlResp
| notFound
| forbidden
| invalidKind
| url (key : Option String) (fileName : Option String)
deriving DecidableEq, Repr

/-- Result of one delete request: final state, response, and the ordered
event trace. -/
structure DelOut where
  state : St
  resp : DelResp
  events : List Ev
deriving Repr

/-- Result of one upload handler run. -/
structure UpOut where
  state : St
  resp : UpResp
  events : List Ev
deriving Repr

/-- Result of one create-folder run. -/
structure FolderOut where
  state : St
  resp : FolderResp
deriving Repr

/-- File branch of the delete handler (src/routes/files.js lines 171-194):
mark the target deleted by id, decrement the storage counter with the
Math.max(0, used - size) clamp (truncated Nat subtraction), then attempt the
S3 delete inside try/catch, whose failure shows only in the event trace. -/
def delFile (st : St) (requester eid : Nat) (f : Entry)
    (blobFails : String → Bool) : DelOut :=
  let st1 : St := { st with entries := markById eid st.entries }
  let st2 := setUsed st1 requester (usedOf st1 requester - f.size)
  let blobEvs := match f.s3Key with
    | some k => [Ev.blobDelete k (!blobFails k)]
    | none => []
  ⟨st2, .success (usedOf st2 requester),
    Ev.markDeleted eid :: Ev.quotaRelease f.size :: blobEvs⟩

/-- Folder branch of the delete handler (src/routes/files.js lines 171-174
and 196-236): mark the target deleted by id, query the children by the path
regex, attempt the S3 delete per child file inside try/catch, mark every
entry matching the same filter deleted, then decrement the storage counter
by the summed child sizes when that sum is positive. -/
def delFolder (st : St) (requester eid : Nat) (f : Entry)
    (blobFails : String → Bool) : DelOut :=
  let st1 : St := { st with entries := markById eid st.entries }
  let children := st1.entries.filter (inFolderScope requester f.path)
  let blobEvs := children.filterMap (fun c =>
    if c.kind = EntryKind.file then
      c.s3Key.map (fun k => Ev.blobDelete k (!blobFails k))
    else none)
  let st2 : St :=
    { st1 with entries := markWhere (inFolderScope requester f.path) st1.entries }
  let totalSize := (children.map Entry.size).sum
  let st3 := if totalSize > 0 then
      setUsed st2 requester (usedOf st2 requester - totalSize)
    else st2
  ⟨st3, .success (usedOf st3 requester),
    Ev.markDeleted eid ::
      (blobEvs ++ children.map (fun c => Ev.markDeleted c.id)
        ++ (if totalSize > 0 then [Ev.quotaRelease totalSize] else []))⟩

/-- The DELETE /api/files/:id handler (src/routes/files.js lines 153-256):
File.findById with no isDeleted filter, 404 only when nothing is found, 403
on owner mismatch, then the file or folder branch. blobFails says which S3
keys the BlobStore would fail to delete. -/
def deleteEntry (st : St) (requester eid : Nat) (blobFails : String → Bool) :
    DelOut :=
  match findEntry st eid with
  | none => ⟨st, .notFound, []⟩
  | some f =>
    if f.owner ≠ requester then ⟨st, .forbidden, []⟩
    else if f.kind = EntryKind.file then delFile st requester eid f blobFails
    else delFolder st requester eid f blobFails

/-- The JavaScript expression name or req.file.originalname of the upload
handler (line 282): an absent or empty name field falls back to the original
file name. -/
def jsFileName (nameField : Option String) (origName : String) : String :=
  match nameField with
  | some n => if n = "" then origName else n
  | none => origName

/-- The path-building block duplicated at src/routes/files.js lines 93-100
and 300-307: start from the root path slash name; only when a parent id is
given, the parent exists, and its owner matches the requester is the path
replaced by parent.path slash name. No error is raised for an absent parent,
a foreign parent, or a parent of the wrong kind. -/
def resolveChildPath (st : St) (requester : Nat) (parentFolder : Option Nat)
    (nm : String) : String :=
  match parentFolder with
  | none => "/" ++ nm
  | some pid =>
    match findEntry st pid with
    | some parent =>
      if parent.owner = requester then parent.path ++ "/" ++ nm
      else "/" ++ nm
    | none => "/" ++ nm

/-- The File document built by the upload handler (src/routes/files.js lines
313-323). -/
def newFileEntry (st : St) (requester : Nat) (size : Nat) (origName : String)
    (nameField : Option String) (parentFolder : Option Nat)
    (newId : Nat) (newKey : String) : Entry :=
  { id := newId, name := jsFileName nameField origName,
    originalName := some origName, kind := EntryKind.file, size := size,
    path := resolveChildPath st requester parentFolder
      (jsFileName nameField origName),
    s3Key := some newKey, parentFolder := parentFolder, owner := requester,
    isDeleted := false }

/-- The POST /api/files/upload handler body (src/routes/files.js lines
260-351): missing-file check, storage-limit check against MAX_STORAGE before
any S3 call, same-kind name-collision check, silent path resolution from the
parent (falling back to a root path when the parent is absent or foreign),
S3 put, entry insertion, and storage increment. newId and newKey stand for
the generated ObjectId and S3 key. -/
def uploadFile (st : St) (requester : Nat) (hasFile : Bool) (size : Nat)
    (origName : String) (nameField : Option String)
    (parentFolder : Option Nat) (newId : Nat) (newKey : String) : UpOut :=
  if hasFile = false then ⟨st, .noFile, []⟩
  else if usedOf st requester + size > MAX_STORAGE then
    ⟨st, .quotaExceeded, []⟩
  else
    let fileName := jsFileName nameField origName
    if nameCollision st requester parentFolder fileName EntryKind.file then
      ⟨st, .conflict, []⟩
    else
      let newEntry : Entry :=
        newFileEntry st requester size origName nameField parentFolder
          newId newKey
      let st1 : St := { st with entries := st.entries ++ [newEntry] }
      let st2 := setUsed st1 requester (usedOf st1 requester + size)
      ⟨st2, .uploaded newEntry (usedOf st2 requester), [Ev.blobPut newKey]⟩

/-- One upload request end to end: the multer middleware (fileSize limit of
MULTER_FILE_SIZE_LIMIT, configured at src/routes/files.js lines 14-23)
aborts oversized uploads before the handler runs; otherwise the handler
executes. The limit-exceeded rejection is the documented multer behavior for
the fileSize limit. -/
def uploadRequest (st : St) (requester : Nat) (hasFile : Bool) (size : Nat)
    (origName : String) (nameField : Option String)
    (parentFolder : Option Nat) (newId : Nat) (newKey : String) :
    St × UpReqResp × List Ev :=
  if hasFile = true ∧ size > MULTER_FILE_SIZE_LIMIT then
    (st, .fileTooLarge, [])
  else
    let o := uploadFile st requester hasFile size origName nameField
      parentFolder newId newKey
    (o.state, .handled o.resp, o.events)

/-- The trim sanitizer applied to the folder name by the express-validator
chain (src/routes/files.js line 53), modelled over the character list:
leading and trailing whitespace is stripped. -/
def jsTrim (s : String) : String :=
  ⟨((s.data.dropWhile Char.isWhitespace).reverse.dropWhile
      Char.isWhitespace).reverse⟩

/-- The POST /api/files/folder handler (src/routes/files.js lines 52-124):
express-validator trims the name and rejects an empty result, then the
same-kind collision check runs, then the path is resolved silently from the
parent (no error when the parent is absent, foreign, or not a folder), and
the folder document is saved with size defaulting to 0. -/
def createFolder (st : St) (requester : Nat) (nameRaw : String)
    (parentFolder : Option Nat) (newId : Nat) : FolderOut :=
  let nm := jsTrim nameRaw
  if nm = "" then ⟨st, .validationError⟩
  else if nameCollision st requester parentFolder nm EntryKind.folder then
    ⟨st, .conflict⟩
  else
    let folder : Entry :=
      { id := newId, name := nm, originalName := none,
        kind := EntryKind.folder, size := 0,
        path := resolveChildPath st requester parentFolder nm, s3Key := none,
        parentFolder := parentFolder, owner := requester, isDeleted := false }
    ⟨{ st with entries := st.entries ++ [folder] }, .created folder⟩

/-- The GET /api/files/:id/download handler (src/routes/files.js lines
355-395): 404 only when findById yields nothing (no isDeleted filter), 403
on owner mismatch, 400 for folders, otherwise the signed URL is generated
from the stored S3 key. -/
def getDownloadUrl (st : St) (requester eid : Nat) : DlResp :=
  match findEntry st eid with
  | none => .notFound
  | some f =>
    if f.owner ≠ requester then .forbidden
    else if f.kind = EntryKind.folder then .invalidKind
    else .url f.s3Key f.originalName

/-- A non-deleted File entry owned by u: the population whose sizes the
Quota Ledger invariant sums. -/
def isLiveFileOf (u : Nat) (e : Entry) : Bool :=
  decide (e.owner = u) && decide (e.isDeleted = false)
    && decide (e.kind = EntryKind.file)

/-- Contribution of one entry to the owned live-file byte total. -/
def liveFileContrib (u : Nat) (e : Entry) : Nat :=
  if isLiveFileOf u e then e.size else 0

/-- Sum of sizeBytes over all non-deleted File entries owned by u. -/
def sumSizes (u : Nat) (es : List Entry) : Nat :=
  (es.map (liveFileContrib u)).sum

/-- A fresh id strictly above every id in use, standing for MongoDB ObjectId
generation (ids are unique). -/
def freshId (es : List Entry) : Nat :=
  (es.map Entry.id).foldr max 0 + 1

/-- Well-formedness carried through operation sequences of user u: entry ids
are pairwise distinct, folder entries have size 0 (the schema default, never
overwritten), the user record exists, and the storage counter equals the
owned live-file byte total. -/
def WFU (u : Nat) (st : St) : Prop :=
  (st.entries.map Entry.id).Nodup
    ∧ (∀ e ∈ st.entries, e.kind = EntryKind.folder → e.size = 0)
    ∧ hasUser st u = true
    ∧ usedOf st u = sumSizes u st.entries

/-- One operation of the sequences quantified over by the quota invariant:
an upload request (its generated id is chosen fresh at execution time) or a
delete request. -/
inductive Op
| upload (hasFile : Bool) (size : Nat) (origName : String)
    (nameField : Option String) (parentFolder : Option Nat) (key : String)
| del (eid : Nat)
deriving DecidableEq, Repr

/-- State transition of one operation executed by user u. -/
def stepOp (u : Nat) (st : St) (op : Op) : St :=
  match op with
  | .upload hf sz og nf pf k =>
    (uploadFile st u hf sz og nf pf (freshId st.entries) k).state
  | .del eid => (deleteEntry st u eid (fun _ => false)).state

/-- Side condition of the amended quota invariant: the operation is not a
delete aimed at an already-soft-deleted File entry of u (re-deleting such an
entry decrements the counter again). -/
def okOp (u : Nat) (st : St) (op : Op) : Bool :=
  match op with
  | .upload _ _ _ _ _ _ => true
  | .del eid =>
    match findEntry st eid with
    | none => true
    | some f =>
      !(decide (f.owner = u) && decide (f.kind = EntryKind.file) && f.isDeleted)

/-- The side condition checked along a whole sequence. -/
def okOps (u : Nat) (st : St) : List Op → Bool
| [] => true
| op :: ops => okOp u st op && okOps u (stepOp u st op) ops

/-- Execution of a sequence of operations by user u. -/
def runOps (u : Nat) (st : St) : List Op → St
| [] => st
| op :: ops => runOps u (stepOp u st op) ops

/-- Event predicate: a metadata soft-delete write. -/
def isMarkEv : Ev → Bool
| .markDeleted _ => true
| _ => false

/-- Event predicate: a storage-counter decrement. -/
def isReleaseEv : Ev → Bool
| .quotaRelease _ => true
| _ => false

/-- Check that in a trace no soft-delete write occurs after any
storage-counter decrement: once a release is seen, the rest of the trace
contains no mark event. -/
def marksBeforeReleases : List Ev → Bool
| [] => true
| e :: rest =>
  if isReleaseEv e then rest.all (fun x => !isMarkEv x)
  else marksBeforeReleases rest

/-- Fixture: a single already-soft-deleted file of size 10 owned by user 0,
with the storage counter at 5, so a repeated release is observable. -/
def stTwice : St :=
  ⟨[⟨1, "a", some "a", EntryKind.file, 10, "/a", some "ka", none, 0, true⟩],
   [(0, 5)]⟩

/-- Fixture: owner 0 has folder /a.c (id 1), folder /abc (id 3) and the file
/abc/x of size 7 under it (id 2); the counter reflects the 7 bytes. -/
def stRegex : St :=
  ⟨[⟨1, "a.c", none, EntryKind.folder, 0, "/a.c", none, none, 0, false⟩,
    ⟨3, "abc", none, EntryKind.folder, 0, "/abc", none, none, 0, false⟩,
    ⟨2, "x", some "x", EntryKind.file, 7, "/abc/x", some "kx", some 3, 0, false⟩],
   [(0, 7)]⟩

/-- Fixture: a soft-deleted file that still has its S3 key and original
name, owned by user 0. -/
def stDeletedDl : St :=
  ⟨[⟨1, "a", some "orig", EntryKind.file, 10, "/a", some "ka", none, 0, true⟩],
   [(0, 0)]⟩

/-- Fixture: user 0 owns a root-level folder named docs. -/
def stFolderDocs : St :=
  ⟨[⟨1, "docs", none, EntryKind.folder, 0, "/docs", none, none, 0, false⟩],
   [(0, 0)]⟩

/-- Fixture: user 0 owns a root-level file named docs of size 3. -/
def stFileDocs : St :=
  ⟨[⟨1, "docs", some "docs", EntryKind.file, 3, "/docs", some "kd", none, 0, false⟩],
   [(0, 3)]⟩

/-- Fixture: the empty account of user 0. -/
def stEmpty : St := ⟨[], [(0, 0)]⟩

/-- Rewriting a present user record stores exactly the new value. -/
theorem lookupUsed_setUsers_self (u v : Nat) (ls : List (Nat × Nat))
    (h : (lookupUsed u ls).isSome = true) :
    lookupUsed u (setUsers u v ls) = some v := by
  induction ls with
  | nil => simp [lookupUsed] at h
  | cons p ps ih =>
    by_cases hp : p.1 = u
    · simp [setUsers, lookupUsed, hp]
    · simp only [lookupUsed, hp, if_neg, reduceIte] at h
      simpa [setUsers, lookupUsed, hp] using ih h

/-- Rewriting a storage value does not create or remove user records. -/
theorem lookupUsed_setUsers_isSome (u v w : Nat) (ls : List (Nat × Nat)) :
    (lookupUsed w (setUsers u v ls)).isSome = (lookupUsed w ls).isSome := by
  induction ls with
  | nil => rfl
  | cons p ps ih =>
    obtain ⟨a, b⟩ := p
    simp only [setUsers, List.map_cons] at ih ⊢
    by_cases hp : a = u
    · subst hp
      by_cases hw : a = w
      · subst hw
        simp [lookupUsed]
      · simpa [lookupUsed, hw] using ih
    · by_cases hw : a = w
      · subst hw
        simp [lookupUsed, hp]
      · simpa [lookupUsed, hp, hw] using ih

/-- usedOf after setUsed on the same present user. -/
theorem usedOf_setUsed_self (st : St) (u v : Nat) (h : hasUser st u = true) :
    usedOf (setUsed st u v) u = v := by
  unfold usedOf setUsed hasUser at *
  rw [lookupUsed_setUsers_self u v st.users h]
  rfl

/-- hasUser is invariant under setUsed. -/
theorem hasUser_setUsed (st : St) (u v w : Nat) :
    hasUser (setUsed st u v) w = hasUser st w := by
  unfold hasUser setUsed
  exact lookupUsed_setUsers_isSome u v w st.users

/-- Every member of a Nat list is bounded by the foldr max. -/
theorem mem_le_foldr_max (x : Nat) (l : List Nat) (h : x ∈ l) :
    x ≤ l.foldr max 0 := by
  induction l with
  | nil => cases h
  | cons a t ih =>
    rcases List.mem_cons.mp h with rfl | h2
    · simp [List.foldr_cons]
    · simp only [List.foldr_cons]
      exact le_trans (ih h2) (le_max_right _ _)

/-- The generated id is not already in use. -/
theorem freshId_not_mem (es : List Entry) : freshId es ∉ es.map Entry.id := by
  intro h
  have hle := mem_le_foldr_max _ _ h
  simp only [freshId] at hle
  omega

/-- sumSizes over a cons. -/
theorem sumSizes_cons (u : Nat) (e : Entry) (t : List Entry) :
    sumSizes u (e :: t) = liveFileContrib u e + sumSizes u t := by
  simp [sumSizes]

/-- sumSizes over an append. -/
theorem sumSizes_append (u : Nat) (l1 l2 : List Entry) :
    sumSizes u (l1 ++ l2) = sumSizes u l1 + sumSizes u l2 := by
  simp [sumSizes]

/-- A marked entry contributes nothing to the live-file total. -/
theorem liveFileContrib_markEntry (u : Nat) (e : Entry) :
    liveFileContrib u (markEntry e) = 0 := by
  simp [liveFileContrib, isLiveFileOf, markEntry]

/-- markWhere unfolded on a cons. -/
theorem markWhere_cons (p : Entry → Bool) (e : Entry) (t : List Entry) :
    markWhere p (e :: t) = (if p e then markEntry e else e) :: markWhere p t :=
  rfl

/-- Marking preserves the id column. -/
theorem markWhere_map_id (p : Entry → Bool) (es : List Entry) :
    (markWhere p es).map Entry.id = es.map Entry.id := by
  induction es with
  | nil => rfl
  | cons e t ih =>
    rw [markWhere_cons, List.map_cons, List.map_cons, ih]
    by_cases hp : p e
    · simp [hp, markEntry]
    · simp [hp]

/-- Marking preserves kinds and sizes, hence the folder-size-zero property. -/
theorem foldersZero_markWhere (p : Entry → Bool) (es : List Entry)
    (hz : ∀ e ∈ es, e.kind = EntryKind.folder → e.size = 0) :
    ∀ e ∈ markWhere p es, e.kind = EntryKind.folder → e.size = 0 := by
  intro e he
  unfold markWhere at he
  obtain ⟨a, ha, rfl⟩ := List.mem_map.mp he
  by_cases hp : p a
  · simpa [hp, markEntry] using hz a ha
  · simpa [hp] using hz a ha

/-- Marking by an id that occurs nowhere changes nothing. -/
theorem markById_eq_of_not_mem (i : Nat) (es : List Entry)
    (h : i ∉ es.map Entry.id) : markById i es = es := by
  induction es with
  | nil => rfl
  | cons e t ih =>
    simp only [List.map_cons, List.mem_cons, not_or] at h
    have ht := ih h.2
    simp only [markById] at ht ⊢
    rw [markWhere_cons, ht]
    have : e.id ≠ i := fun hc => h.1 hc.symm
    simp [this]

/-- Marking the unique entry carrying an id removes exactly that entry
contribution from the live-file total. -/
theorem sumSizes_markById (u : Nat) (es : List Entry) (f : Entry)
    (hn : (es.map Entry.id).Nodup) (hf : f ∈ es) :
    sumSizes u (markById f.id es) + liveFileContrib u f = sumSizes u es := by
  induction es with
  | nil => cases hf
  | cons e t ih =>
    simp only [List.map_cons, List.nodup_cons] at hn
    rcases List.mem_cons.mp hf with rfl | hft
    · have ht : markById f.id t = t := markById_eq_of_not_mem _ _ hn.1
      simp only [markById] at ht ⊢
      rw [markWhere_cons, ht]
      simp [sumSizes_cons, liveFileContrib_markEntry]
      omega
    · have hne : e.id ≠ f.id := by
        intro hc
        exact hn.1 (hc ▸ List.mem_map_of_mem Entry.id hft)
      have := ih hn.2 hft
      simp only [markById] at this ⊢
      rw [markWhere_cons]
      have hif : (if (decide (e.id = f.id)) = true then markEntry e else e) = e := by
        simp [hne]
      rw [hif, sumSizes_cons, sumSizes_cons]
      omega

/-- Marking every entry in the cascade scope removes exactly the summed
sizes of the scoped entries from the live-file total (folders in scope carry
size 0, files in scope are live files of the owner). -/
theorem sumSizes_markScope (u : Nat) (pth : String) :
    ∀ es : List Entry, (∀ e ∈ es, e.kind = EntryKind.folder → e.size = 0) →
      sumSizes u (markWhere (inFolderScope u pth) es)
          + ((es.filter (inFolderScope u pth)).map Entry.size).sum
        = sumSizes u es
  | [], _ => rfl
  | e :: t, hz => by
    have iht := sumSizes_markScope u pth t
      (fun x hx => hz x (List.mem_cons_of_mem e hx))
    rw [markWhere_cons, List.filter_cons]
    by_cases hq : inFolderScope u pth e = true
    · have hsc : e.owner = u ∧ e.isDeleted = false := by
        have := hq
        simp only [inFolderScope, Bool.and_eq_true, decide_eq_true_eq] at this
        exact ⟨this.1.1, this.2⟩
      have hcontrib : liveFileContrib u e = e.size := by
        cases hk : e.kind
        · simp [liveFileContrib, isLiveFileOf, hsc.1, hsc.2, hk]
        · rw [hz e (List.mem_cons_self e t) hk]
          simp [liveFileContrib, isLiveFileOf, hk]
      rw [if_pos hq]
      simp only [hq, if_true, List.map_cons, List.sum_cons, sumSizes_cons,
        liveFileContrib_markEntry]
      omega
    · have hq2 : inFolderScope u pth e = false := by
        simpa using hq
      rw [if_neg hq]
      simp only [hq2, Bool.false_eq_true, if_false, sumSizes_cons]
      omega

/-- Membership in a live user record is preserved under entry-only state
changes; restatement of hasUser for a state with replaced entries. -/
theorem hasUser_entries (st : St) (es : List Entry) (u : Nat) :
    hasUser { st with entries := es } u = hasUser st u := rfl

/-- usedOf ignores the entries component. -/
theorem usedOf_entries (st : St) (es : List Entry) (u : Nat) :
    usedOf { st with entries := es } u = usedOf st u := rfl

/-- The file branch of the delete handler preserves well-formedness when the
target is a not-yet-deleted file of the requester. -/
theorem WFU_delFile (u : Nat) (st : St) (f : Entry) (bf : String → Bool)
    (h : WFU u st) (hmem : f ∈ st.entries)
    (how : f.owner = u) (hk : f.kind = EntryKind.file)
    (hdel : f.isDeleted = false) :
    WFU u (delFile st u f.id f bf).state := by
  obtain ⟨hnd, hz, hu, hq⟩ := h
  have hsum := sumSizes_markById u st.entries f hnd hmem
  have hcontrib : liveFileContrib u f = f.size := by
    simp [liveFileContrib, isLiveFileOf, how, hk, hdel]
  refine ⟨?_, ?_, ?_, ?_⟩
  · show ((markById f.id st.entries).map Entry.id).Nodup
    rw [markById, markWhere_map_id]
    exact hnd
  · show ∀ e ∈ markById f.id st.entries, _
    exact foldersZero_markWhere _ _ hz
  · show hasUser (setUsed _ u _) u = true
    rw [hasUser_setUsed]
    exact hu
  · show usedOf (setUsed _ u _) u = sumSizes u (markById f.id st.entries)
    rw [usedOf_setUsed_self _ u _ (by rw [hasUser_entries]; exact hu)]
    rw [usedOf_entries]
    omega

/-- The folder branch of the delete handler preserves well-formedness for
any folder target of the requester (even an already-deleted one). -/
theorem WFU_delFolder (u : Nat) (st : St) (f : Entry) (bf : String → Bool)
    (h : WFU u st) (hmem : f ∈ st.entries)
    (how : f.owner = u) (hk : f.kind ≠ EntryKind.file) :
    WFU u (delFolder st u f.id f bf).state := by
  obtain ⟨hnd, hz, hu, hq⟩ := h
  have hsum1 := sumSizes_markById u st.entries f hnd hmem
  have hcontrib : liveFileContrib u f = 0 := by
    simp [liveFileContrib, isLiveFileOf, hk]
  have hz1 : ∀ e ∈ markById f.id st.entries, e.kind = EntryKind.folder → e.size = 0 :=
    foldersZero_markWhere _ _ hz
  have hsum2 := sumSizes_markScope u f.path (markById f.id st.entries) hz1
  have hndE : ((markWhere (inFolderScope u f.path) (markById f.id st.entries)).map
      Entry.id).Nodup := by
    rw [markWhere_map_id, markById, markWhere_map_id]
    exact hnd
  have hzE := foldersZero_markWhere (inFolderScope u f.path) _ hz1
  by_cases htot : (((markById f.id st.entries).filter
      (inFolderScope u f.path)).map Entry.size).sum > 0
  · have hstate : (delFolder st u f.id f bf).state
        = setUsed
            { st with entries :=
                markWhere (inFolderScope u f.path) (markById f.id st.entries) } u
            (usedOf st u - (((markById f.id st.entries).filter
                (inFolderScope u f.path)).map Entry.size).sum) := by
      simp only [delFolder]
      rw [if_pos htot]
      rfl
    rw [hstate]
    refine ⟨hndE, hzE, ?_, ?_⟩
    · rw [hasUser_setUsed, hasUser_entries]
      exact hu
    · rw [usedOf_setUsed_self _ u _ (by rw [hasUser_entries]; exact hu)]
      show _ = sumSizes u (markWhere (inFolderScope u f.path) (markById f.id st.entries))
      omega
  · have hstate : (delFolder st u f.id f bf).state
        = { st with entries :=
              markWhere (inFolderScope u f.path) (markById f.id st.entries) } := by
      simp only [delFolder]
      rw [if_neg htot]
    rw [hstate]
    refine ⟨hndE, hzE, hu, ?_⟩
    show usedOf _ u = sumSizes u (markWhere (inFolderScope u f.path) (markById f.id st.entries))
    rw [usedOf_entries]
    omega

/-- Appending a fresh, live file owned by u and bumping the counter by its
size preserves well-formedness. -/
theorem WFU_appendFile (u : Nat) (st : St) (e : Entry) (h : WFU u st)
    (hid : e.id = freshId st.entries) (hown : e.owner = u)
    (hkind : e.kind = EntryKind.file) (hdel : e.isDeleted = false) :
    WFU u (setUsed { st with entries := st.entries ++ [e] } u
      (usedOf st u + e.size)) := by
  obtain ⟨hnd, hz, hu, hq⟩ := h
  have hcontrib : liveFileContrib u e = e.size := by
    simp [liveFileContrib, isLiveFileOf, hown, hkind, hdel]
  refine ⟨?_, ?_, ?_, ?_⟩
  · show ((st.entries ++ [e]).map Entry.id).Nodup
    rw [List.map_append]
    refine List.Nodup.append hnd (List.nodup_singleton _) ?_
    intro a ha hb
    simp only [List.map_singleton, List.mem_singleton] at hb
    subst hb
    rw [hid] at ha
    exact freshId_not_mem st.entries ha
  · show ∀ x ∈ st.entries ++ [e], x.kind = EntryKind.folder → x.size = 0
    intro x hx
    rcases List.mem_append.mp hx with hx1 | hx2
    · exact hz x hx1
    · rw [List.mem_singleton] at hx2
      subst hx2
      rw [hkind]
      intro hc
      cases hc
  · rw [hasUser_setUsed, hasUser_entries]
    exact hu
  · rw [usedOf_setUsed_self _ u _ (by rw [hasUser_entries]; exact hu)]
    show _ = sumSizes u (st.entries ++ [e])
    have hnil : sumSizes u [] = 0 := rfl
    rw [sumSizes_append, sumSizes_cons, hnil]
    omega

/-- The upload handler, run with a freshly generated id, preserves
well-formedness in every branch. -/
theorem WFU_uploadFile (u : Nat) (st : St) (hf : Bool) (sz : Nat)
    (og : String) (nf : Option String) (pf : Option Nat) (k : String)
    (h : WFU u st) :
    WFU u (uploadFile st u hf sz og nf pf (freshId st.entries) k).state := by
  have hnb : ¬(true = false) := by simp
  cases hf with
  | false => exact h
  | true =>
    by_cases hquota : usedOf st u + sz > MAX_STORAGE
    · have hstate : (uploadFile st u true sz og nf pf (freshId st.entries) k).state = st := by
        simp only [uploadFile]
        rw [if_neg hnb, if_pos hquota]
      rw [hstate]
      exact h
    · by_cases hcol :
          nameCollision st u pf (jsFileName nf og) EntryKind.file = true
      · have hstate : (uploadFile st u true sz og nf pf (freshId st.entries) k).state = st := by
          simp only [uploadFile]
          rw [if_neg hnb, if_neg hquota, if_pos hcol]
        rw [hstate]
        exact h
      · have hstate : (uploadFile st u true sz og nf pf (freshId st.entries) k).state
            = setUsed
                { st with entries := st.entries ++
                    [newFileEntry st u sz og nf pf (freshId st.entries) k] } u
                (usedOf st u + sz) := by
          simp only [uploadFile]
          rw [if_neg hnb, if_neg hquota, if_neg hcol]
          rfl
        rw [hstate]
        exact WFU_appendFile u st _ h rfl rfl rfl rfl

/-- The delete handler preserves well-formedness whenever the operation
respects the no-repeated-file-delete side condition. -/
theorem WFU_deleteEntry (u : Nat) (st : St) (eid : Nat) (bf : String → Bool)
    (h : WFU u st) (hok : okOp u st (Op.del eid) = true) :
    WFU u (deleteEntry st u eid bf).state := by
  rcases hfind : findEntry st eid with _ | f
  · have hstate : (deleteEntry st u eid bf).state = st := by
      simp [deleteEntry, hfind]
    rw [hstate]
    exact h
  · have hmem : f ∈ st.entries := List.mem_of_find?_eq_some hfind
    have hfid : f.id = eid := by
      have := List.find?_some hfind
      simpa using this
    by_cases how : f.owner = u
    · by_cases hk : f.kind = EntryKind.file
      · have hdel : f.isDeleted = false := by
          simp only [okOp, hfind] at hok
          simpa [how, hk] using hok
        have hstate : deleteEntry st u eid bf = delFile st u eid f bf := by
          simp [deleteEntry, hfind, how, hk]
        rw [hstate, ← hfid]
        exact WFU_delFile u st f bf h hmem how hk hdel
      · have hstate : deleteEntry st u eid bf = delFolder st u eid f bf := by
          simp [deleteEntry, hfind, how, hk]
        rw [hstate, ← hfid]
        exact WFU_delFolder u st f bf h hmem how hk
    · have hstate : (deleteEntry st u eid bf).state = st := by
        simp [deleteEntry, hfind, how]
      rw [hstate]
      exact h

/-- One allowed operation preserves well-formedness. -/
theorem WFU_stepOp (u : Nat) (st : St) (op : Op) (h : WFU u st)
    (hok : okOp u st op = true) : WFU u (stepOp u st op) := by
  cases op with
  | upload hf sz og nf pf k => exact WFU_uploadFile u st hf sz og nf pf k h
  | del eid => exact WFU_deleteEntry u st eid _ h hok

/-- Any allowed sequence of operations preserves well-formedness. -/
theorem WFU_runOps (u : Nat) : ∀ (ops : List Op) (st : St),
    WFU u st → okOps u st ops = true → WFU u (runOps u st ops)
  | [], _, h, _ => h
  | op :: ops, st, h, hok => by
    have hok2 := hok
    simp only [okOps, Bool.and_eq_true] at hok2
    exact WFU_runOps u ops (stepOp u st op) (WFU_stepOp u st op h hok2.1) hok2.2

/-- Oversized quota: the upload handler answers quotaExceeded, leaves the
state untouched, and performs no BlobStore call (empty event trace). -/
theorem uploadFile_quotaExceeded (st : St) (u sz nid : Nat) (og k : String)
    (nf : Option String) (pf : Option Nat)
    (hgt : usedOf st u + sz > MAX_STORAGE) :
    uploadFile st u true sz og nf pf nid k = ⟨st, .quotaExceeded, []⟩ := by
  have hnb : ¬(true = false) := by simp
  simp only [uploadFile]
  rw [if_neg hnb, if_pos hgt]

/-- Same-kind name collision: the upload handler answers conflict and leaves
the state untouched. -/
theorem uploadFile_conflict (st : St) (u sz nid : Nat) (og k : String)
    (nf : Option String) (pf : Option Nat)
    (hle : ¬(usedOf st u + sz > MAX_STORAGE))
    (hcol : nameCollision st u pf (jsFileName nf og) EntryKind.file = true) :
    uploadFile st u true sz og nf pf nid k = ⟨st, .conflict, []⟩ := by
  have hnb : ¬(true = false) := by simp
  simp only [uploadFile]
  rw [if_neg hnb, if_neg hle, if_pos hcol]

/-- Successful upload: the new File document is appended, the counter is
written as the old value plus the upload size, and one blob put is
performed. -/
theorem uploadFile_success (st : St) (u sz nid : Nat) (og k : String)
    (nf : Option String) (pf : Option Nat)
    (hle : ¬(usedOf st u + sz > MAX_STORAGE))
    (hcol : nameCollision st u pf (jsFileName nf og) EntryKind.file = false) :
    uploadFile st u true sz og nf pf nid k
      = ⟨setUsed
            { st with entries :=
                st.entries ++ [newFileEntry st u sz og nf pf nid k] } u
            (usedOf st u + sz),
         .uploaded (newFileEntry st u sz og nf pf nid k)
           (usedOf (setUsed
             { st with entries :=
                 st.entries ++ [newFileEntry st u sz og nf pf nid k] } u
             (usedOf st u + sz)) u),
         [Ev.blobPut k]⟩ := by
  have hnb : ¬(true = false) := by simp
  have hncol : ¬(nameCollision st u pf (jsFileName nf og) EntryKind.file = true) := by
    simp [hcol]
  simp only [uploadFile]
  rw [if_neg hnb, if_neg hle, if_neg hncol]
  rfl

/-- On a successful upload of a user with a present record, the stored
counter value is exactly the old value plus the upload size. -/
theorem uploadFile_success_used (st : St) (u sz nid : Nat) (og k : String)
    (nf : Option String) (pf : Option Nat) (hu : hasUser st u = true)
    (hle : ¬(usedOf st u + sz > MAX_STORAGE))
    (hcol : nameCollision st u pf (jsFileName nf og) EntryKind.file = false) :
    usedOf (uploadFile st u true sz og nf pf nid k).state u
      = usedOf st u + sz := by
  rw [uploadFile_success st u sz nid og k nf pf hle hcol]
  exact usedOf_setUsed_self _ u _ (by rw [hasUser_entries]; exact hu)

/-- On a successful upload, the 201 response carries the created File
document and the incremented counter. -/
theorem uploadFile_success_resp (st : St) (u sz nid : Nat) (og k : String)
    (nf : Option String) (pf : Option Nat) (hu : hasUser st u = true)
    (hle : ¬(usedOf st u + sz > MAX_STORAGE))
    (hcol : nameCollision st u pf (jsFileName nf og) EntryKind.file = false) :
    (uploadFile st u true sz og nf pf nid k).resp
      = .uploaded (newFileEntry st u sz og nf pf nid k) (usedOf st u + sz) := by
  have h2 : usedOf (setUsed
      { st with entries := st.entries ++ [newFileEntry st u sz og nf pf nid k] } u
      (usedOf st u + sz)) u = usedOf st u + sz :=
    usedOf_setUsed_self _ u _ (by rw [hasUser_entries]; exact hu)
  rw [uploadFile_success st u sz nid og k nf pf hle hcol, h2]

/-- Empty trimmed name: create-folder answers a validation error. -/
theorem createFolder_validation (st : St) (u nid : Nat) (nmRaw : String)
    (pf : Option Nat) (h : jsTrim nmRaw = "") :
    createFolder st u nmRaw pf nid = ⟨st, .validationError⟩ := by
  simp [createFolder, h]

/-- Same-kind name collision: create-folder answers conflict and leaves the
state untouched. -/
theorem createFolder_conflict (st : St) (u nid : Nat) (nmRaw : String)
    (pf : Option Nat) (hne : jsTrim nmRaw ≠ "")
    (hcol : nameCollision st u pf (jsTrim nmRaw) EntryKind.folder = true) :
    createFolder st u nmRaw pf nid = ⟨st, .conflict⟩ := by
  simp [createFolder, hne, hcol]

/-- Successful folder creation: the new Folder document, with the silently
resolved path and size 0, is appended. -/
theorem createFolder_success (st : St) (u nid : Nat) (nmRaw : String)
    (pf : Option Nat) (hne : jsTrim nmRaw ≠ "")
    (hcol : nameCollision st u pf (jsTrim nmRaw) EntryKind.folder = false) :
    createFolder st u nmRaw pf nid
      = ⟨{ st with entries := st.entries ++
            [{ id := nid, name := jsTrim nmRaw, originalName := none,
               kind := EntryKind.folder, size := 0,
               path := resolveChildPath st u pf (jsTrim nmRaw), s3Key := none,
               parentFolder := pf, owner := u, isDeleted := false }] },
         .created
           { id := nid, name := jsTrim nmRaw, originalName := none,
             kind := EntryKind.folder, size := 0,
             path := resolveChildPath st u pf (jsTrim nmRaw), s3Key := none,
             parentFolder := pf, owner := u, isDeleted := false }⟩ := by
  simp [createFolder, hne, hcol]

/-- Skipping release-free events leaves the mark-ordering check unchanged. -/
theorem marksBeforeReleases_append (l1 l2 : List Ev)
    (h : ∀ e ∈ l1, isReleaseEv e = false) :
    marksBeforeReleases (l1 ++ l2) = marksBeforeReleases l2 := by
  induction l1 with
  | nil => rfl
  | cons e t ih =>
    have he := h e (List.mem_cons_self e t)
    simp only [List.cons_append, marksBeforeReleases, he, Bool.false_eq_true,
      if_false]
    exact ih (fun x hx => h x (List.mem_cons_of_mem e hx))

/-- A leading mark event does not affect the mark-ordering check. -/
theorem marksBeforeReleases_cons_mark (eid : Nat) (l : List Ev) :
    marksBeforeReleases (Ev.markDeleted eid :: l) = marksBeforeReleases l :=
  rfl

/-- The generic event shape of a folder-delete cascade passes the
mark-ordering check: blob deletes, then the child marks, then at most one
trailing release. -/
theorem marksBeforeReleases_cascade (eid : Nat) (cs : List Entry)
    (bf : String → Bool) (n : Nat) :
    marksBeforeReleases
      (Ev.markDeleted eid ::
        (cs.filterMap (fun c =>
            if c.kind = EntryKind.file then
              c.s3Key.map (fun kk => Ev.blobDelete kk (!bf kk))
            else none)
          ++ cs.map (fun c => Ev.markDeleted c.id)
          ++ (if n > 0 then [Ev.quotaRelease n] else []))) = true := by
  have h1 : ∀ e ∈ cs.filterMap (fun c =>
      if c.kind = EntryKind.file then
        c.s3Key.map (fun kk => Ev.blobDelete kk (!bf kk))
      else none), isReleaseEv e = false := by
    intro e he
    obtain ⟨c, _, hce⟩ := List.mem_filterMap.mp he
    by_cases hck : c.kind = EntryKind.file
    · rw [if_pos hck] at hce
      obtain ⟨kk, _, hk2⟩ := Option.map_eq_some'.mp hce
      rw [← hk2]
      rfl
    · rw [if_neg hck] at hce
      cases hce
  have h2 : ∀ e ∈ cs.map (fun c => Ev.markDeleted c.id),
      isReleaseEv e = false := by
    intro e he
    obtain ⟨c, _, rfl⟩ := List.mem_map.mp he
    rfl
  rw [marksBeforeReleases_cons_mark, List.append_assoc,
    marksBeforeReleases_append _ _ h1, marksBeforeReleases_append _ _ h2]
  by_cases hn : n > 0
  · rw [if_pos hn]
    rfl
  · rw [if_neg hn]
    rfl

/-- The file branch of the delete handler passes the mark-ordering check. -/
theorem marksBeforeReleases_delFile (st : St) (u eid : Nat) (f : Entry)
    (bf : String → Bool) :
    marksBeforeReleases (delFile st u eid f bf).events = true := by
  rcases hk : f.s3Key with _ | kk
  · simp [delFile, hk, marksBeforeReleases, isReleaseEv, isMarkEv]
  · simp [delFile, hk, marksBeforeReleases, isReleaseEv, isMarkEv]

/-- The folder branch of the delete handler passes the mark-ordering
check. -/
theorem marksBeforeReleases_delFolder (st : St) (u eid : Nat) (f : Entry)
    (bf : String → Bool) :
    marksBeforeReleases (delFolder st u eid f bf).events = true :=
  marksBeforeReleases_cascade eid
    ((markById eid st.entries).filter (inFolderScope u f.path)) bf
    ((((markById eid st.entries).filter (inFolderScope u f.path)).map
      Entry.size).sum)

/-- Claim C9: within one delete request, every metadata soft-delete write
(for the target and, for folders, its descendants) occurs strictly before
the storage-counter release in the event trace: once a quotaRelease event
appears, no markDeleted event follows, for every state, requester, target
and blob-failure pattern. -/
theorem delete_marks_precede_release (st : St) (u eid : Nat)
    (bf : String → Bool) :
    marksBeforeReleases (deleteEntry st u eid bf).events = true := by
  rcases hfind : findEntry st eid with _ | f
  · simp [deleteEntry, hfind, marksBeforeReleases]
  · by_cases how : f.owner = u
    · by_cases hk : f.kind = EntryKind.file
      · have h1 : deleteEntry st u eid bf = delFile st u eid f bf := by
          simp [deleteEntry, hfind, how, hk]
        rw [h1]
        exact marksBeforeReleases_delFile st u eid f bf
      · have h1 : deleteEntry st u eid bf = delFolder st u eid f bf := by
          simp [deleteEntry, hfind, how, hk]
        rw [h1]
        exact marksBeforeReleases_delFolder st u eid f bf
    · have h1 : deleteEntry st u eid bf = ⟨st, .forbidden, []⟩ := by
        simp [deleteEntry, hfind, how]
      rw [h1]
      rfl

/-- Claim C8: blob-store failures during delete are invisible in the
outcome: the final state and the response are identical to those of a run
with no blob failures, and whenever the target exists and belongs to the
requester the operation reports success carrying the updated counter, for
every blob-failure pattern. -/
theorem delete_blob_failure_invisible (st : St) (u eid : Nat)
    (bf : String → Bool) :
    (deleteEntry st u eid bf).state = (deleteEntry st u eid (fun _ => false)).state
    ∧ (deleteEntry st u eid bf).resp = (deleteEntry st u eid (fun _ => false)).resp
    ∧ (∀ f, findEntry st eid = some f → f.owner = u →
        (deleteEntry st u eid bf).resp
          = DelResp.success (usedOf (deleteEntry st u eid bf).state u)) := by
  rcases hfind : findEntry st eid with _ | f
  · refine ⟨by simp [deleteEntry, hfind], by simp [deleteEntry, hfind], ?_⟩
    intro g hg
    cases hg
  · by_cases how : f.owner = u
    · by_cases hk : f.kind = EntryKind.file
      · have h1 : deleteEntry st u eid bf = delFile st u eid f bf := by
          simp [deleteEntry, hfind, how, hk]
        have h2 : deleteEntry st u eid (fun _ => false)
            = delFile st u eid f (fun _ => false) := by
          simp [deleteEntry, hfind, how, hk]
        refine ⟨by rw [h1, h2]; rfl, by rw [h1, h2]; rfl, ?_⟩
        intro g hg hgo
        rw [h1]
        rfl
      · have h1 : deleteEntry st u eid bf = delFolder st u eid f bf := by
          simp [deleteEntry, hfind, how, hk]
        have h2 : deleteEntry st u eid (fun _ => false)
            = delFolder st u eid f (fun _ => false) := by
          simp [deleteEntry, hfind, how, hk]
        refine ⟨by rw [h1, h2]; rfl, by rw [h1, h2]; rfl, ?_⟩
        intro g hg hgo
        rw [h1]
        rfl
    · have h1 : deleteEntry st u eid bf = ⟨st, .forbidden, []⟩ := by
        simp [deleteEntry, hfind, how]
      have h2 : deleteEntry st u eid (fun _ => false) = ⟨st, .forbidden, []⟩ := by
        simp [deleteEntry, hfind, how]
      refine ⟨by rw [h1, h2], by rw [h1, h2], ?_⟩
      intro g hg hgo
      injection hg with hfg
      subst hfg
      exact absurd hgo how

/-- Witness for delete_blob_failure_invisible: deleting the file docs of
stFileDocs while every S3 delete fails still reports success with the
updated counter. -/
theorem delete_blob_failure_invisible_witness :
    (deleteEntry stFileDocs 0 1 (fun _ => true)).resp
      = DelResp.success (usedOf (deleteEntry stFileDocs 0 1 (fun _ => true)).state 0) :=
  (delete_blob_failure_invisible stFileDocs 0 1 (fun _ => true)).2.2
    ⟨1, "docs", some "docs", EntryKind.file, 3, "/docs", some "kd", none, 0, false⟩
    rfl rfl

/-- Claim C2 (amended): deleteEntry fails NotFound exactly when no entry
with the id exists at all (already-soft-deleted entries are still found by
findById), fails Forbidden with no state change when the owner differs, and
for any found entry of the requester, deleted or not, it reports success. -/
theorem delete_lookup_errors (st : St) (u eid : Nat) (bf : String → Bool) :
    (findEntry st eid = none → deleteEntry st u eid bf = ⟨st, .notFound, []⟩)
    ∧ (∀ f, findEntry st eid = some f → f.owner ≠ u →
        deleteEntry st u eid bf = ⟨st, .forbidden, []⟩)
    ∧ (∀ f, findEntry st eid = some f → f.owner = u →
        ∃ n, (deleteEntry st u eid bf).resp = DelResp.success n) := by
  refine ⟨?_, ?_, ?_⟩
  · intro h
    simp [deleteEntry, h]
  · intro f h hno
    simp [deleteEntry, h, hno]
  · intro f h ho
    by_cases hk : f.kind = EntryKind.file
    · have h1 : deleteEntry st u eid bf = delFile st u eid f bf := by
        simp [deleteEntry, h, ho, hk]
      rw [h1]
      exact ⟨_, rfl⟩
    · have h1 : deleteEntry st u eid bf = delFolder st u eid f bf := by
        simp [deleteEntry, h, ho, hk]
      rw [h1]
      exact ⟨_, rfl⟩

/-- Witness for delete_lookup_errors: absent id 9 gives NotFound with no
state change; requester 5 deleting the entry of owner 0 gives Forbidden. -/
theorem delete_lookup_errors_witness :
    deleteEntry stEmpty 0 9 (fun _ => false) = ⟨stEmpty, DelResp.notFound, []⟩
    ∧ deleteEntry stFileDocs 5 1 (fun _ => false)
        = ⟨stFileDocs, DelResp.forbidden, []⟩ := by
  constructor
  · exact (delete_lookup_errors stEmpty 0 9 (fun _ => false)).1 rfl
  · exact (delete_lookup_errors stFileDocs 5 1 (fun _ => false)).2.1
      ⟨1, "docs", some "docs", EntryKind.file, 3, "/docs", some "kd", none, 0, false⟩
      rfl (by decide)

/-- Counterexample to claim C2 as stated: entry 1 of stTwice is already
soft-deleted, yet deleting it again does not fail NotFound: it reports
success and decrements the counter again (5 minus 10, clamped to 0), a
visible state change. -/
theorem delete_lookup_errors_cex :
    (deleteEntry stTwice 0 1 (fun _ => false)).resp = DelResp.success 0
    ∧ usedOf (deleteEntry stTwice 0 1 (fun _ => false)).state 0 = 0
    ∧ usedOf stTwice 0 = 5 := by
  decide

/-- Claim C1 (amended): starting from any well-formed state of user u, after
any sequence of upload and delete operations by u in which no delete targets
an already-soft-deleted File entry, the storage counter equals the sum of
sizeBytes over the non-deleted File entries owned by u; as every prefix of
such a sequence is again such a sequence, this holds at every quiescent
point. -/
theorem quota_equals_live_file_sum (u : Nat) (st : St) (ops : List Op)
    (h : WFU u st) (hops : okOps u st ops = true) :
    usedOf (runOps u st ops) u = sumSizes u (runOps u st ops).entries :=
  (WFU_runOps u ops st h hops).2.2.2

/-- Witness for quota_equals_live_file_sum: two uploads and one delete from
the empty account. -/
theorem quota_equals_live_file_sum_witness :
    usedOf (runOps 0 stEmpty [Op.upload true 10 "a" none none "ka",
        Op.upload true 5 "b" none none "kb", Op.del 1]) 0
      = sumSizes 0 (runOps 0 stEmpty [Op.upload true 10 "a" none none "ka",
        Op.upload true 5 "b" none none "kb", Op.del 1]).entries :=
  quota_equals_live_file_sum 0 stEmpty
    [Op.upload true 10 "a" none none "ka",
     Op.upload true 5 "b" none none "kb", Op.del 1]
    (by unfold WFU; exact ⟨by decide, by decide, rfl, rfl⟩) (by decide)

/-- Counterexample to claim C1 as stated: upload a (size 10), upload b
(size 5), delete a, delete a again; the second delete of the same File
entry decrements the counter again and clamps at 0, so the counter reads 0
while the live-file sum is 5. -/
theorem quota_equals_live_file_sum_cex :
    usedOf (runOps 0 stEmpty [Op.upload true 10 "a" none none "ka",
        Op.upload true 5 "b" none none "kb", Op.del 1, Op.del 1]) 0 = 0
    ∧ sumSizes 0 (runOps 0 stEmpty [Op.upload true 10 "a" none none "ka",
        Op.upload true 5 "b" none none "kb", Op.del 1, Op.del 1]).entries = 5
    ∧ ¬(usedOf (runOps 0 stEmpty [Op.upload true 10 "a" none none "ka",
        Op.upload true 5 "b" none none "kb", Op.del 1, Op.del 1]) 0
      = sumSizes 0 (runOps 0 stEmpty [Op.upload true 10 "a" none none "ka",
        Op.upload true 5 "b" none none "kb", Op.del 1, Op.del 1]).entries) := by
  decide

/-- Claim C3 evidence: the live entries of stRegex are the folders /a.c and
/abc and the file /abc/x (size 7, owned by the requester). The path /abc/x
does not have "/a.c/" as a literal prefix, yet deleting folder /a.c (id 1)
soft-deletes /abc/x (id 2) through the unescaped-regex match (the dot in
the folder path matches the b) and releases its 7 bytes, while /abc (id 3)
remains. -/
theorem folder_cascade_regex_overreach :
    ("/a.c/".data.isPrefixOf "/abc/x".data) = false
    ∧ ((deleteEntry stRegex 0 1 (fun _ => false)).state.entries.map
        (fun e => (e.id, e.isDeleted))) = [(1, true), (3, false), (2, true)]
    ∧ usedOf (deleteEntry stRegex 0 1 (fun _ => false)).state 0 = 0
    ∧ usedOf stRegex 0 = 7 := by
  decide

/-- Claim C4: an upload whose size on top of the current counter exceeds the
fixed 15 GiB ceiling fails quotaExceeded with the state unchanged and an
empty event trace, hence before any BlobStore call; otherwise, with no name
collision, it succeeds and the counter is incremented by exactly the upload
size. -/
theorem upload_quota_guard (st : St) (u sz nid : Nat) (og k : String)
    (nf : Option String) (pf : Option Nat) (hu : hasUser st u = true) :
    (usedOf st u + sz > MAX_STORAGE →
      uploadFile st u true sz og nf pf nid k = ⟨st, .quotaExceeded, []⟩)
    ∧ (¬(usedOf st u + sz > MAX_STORAGE) →
      nameCollision st u pf (jsFileName nf og) EntryKind.file = false →
      (uploadFile st u true sz og nf pf nid k).resp
          = .uploaded (newFileEntry st u sz og nf pf nid k) (usedOf st u + sz)
        ∧ usedOf (uploadFile st u true sz og nf pf nid k).state u
          = usedOf st u + sz) :=
  ⟨fun hgt => uploadFile_quotaExceeded st u sz nid og k nf pf hgt,
   fun hle hcol =>
     ⟨uploadFile_success_resp st u sz nid og k nf pf hu hle hcol,
      uploadFile_success_used st u sz nid og k nf pf hu hle hcol⟩⟩

/-- Witness for upload_quota_guard: an upload of 15 GiB plus one byte is
rejected with no event; an upload of 10 bytes succeeds with the counter at
10. -/
theorem upload_quota_guard_witness :
    uploadFile stEmpty 0 true (MAX_STORAGE + 1) "big" none none 1 "kb"
        = ⟨stEmpty, .quotaExceeded, []⟩
    ∧ (uploadFile stEmpty 0 true 10 "a" none none 1 "ka").resp
        = .uploaded (newFileEntry stEmpty 0 10 "a" none none 1 "ka") 10 := by
  constructor
  · exact (upload_quota_guard stEmpty 0 (MAX_STORAGE + 1) 1 "big" "kb"
      none none rfl).1 (by decide)
  · exact ((upload_quota_guard stEmpty 0 10 1 "a" "ka" none none rfl).2
      (by decide) (by decide)).1

/-- Claim C5 (amended): path resolution for a create with a parent reference
never raises NotFound, Forbidden or InvalidKind; the path is
parent.path slash name exactly when the parent exists and is owned by the
requester, regardless of the parent kind, and silently falls back to the
root path slash name otherwise; both create handlers install this resolved
path in the created document on success. -/
theorem create_parent_path_fallback (st : St) (u nid sz pid : Nat)
    (nmRaw og k : String) (nf : Option String) (hu : hasUser st u = true) :
    (findEntry st pid = none →
      resolveChildPath st u (some pid) nmRaw = "/" ++ nmRaw)
    ∧ (∀ p, findEntry st pid = some p → p.owner ≠ u →
      resolveChildPath st u (some pid) nmRaw = "/" ++ nmRaw)
    ∧ (∀ p, findEntry st pid = some p → p.owner = u →
      resolveChildPath st u (some pid) nmRaw = p.path ++ "/" ++ nmRaw)
    ∧ (jsTrim nmRaw ≠ "" →
      nameCollision st u (some pid) (jsTrim nmRaw) EntryKind.folder = false →
      (createFolder st u nmRaw (some pid) nid).resp
        = .created
            { id := nid, name := jsTrim nmRaw, originalName := none,
              kind := EntryKind.folder, size := 0,
              path := resolveChildPath st u (some pid) (jsTrim nmRaw),
              s3Key := none, parentFolder := some pid, owner := u,
              isDeleted := false })
    ∧ (¬(usedOf st u + sz > MAX_STORAGE) →
      nameCollision st u (some pid) (jsFileName nf og) EntryKind.file = false →
      (uploadFile st u true sz og nf (some pid) nid k).resp
          = .uploaded (newFileEntry st u sz og nf (some pid) nid k)
              (usedOf st u + sz)
        ∧ (newFileEntry st u sz og nf (some pid) nid k).path
          = resolveChildPath st u (some pid) (jsFileName nf og)) := by
  refine ⟨?_, ?_, ?_, ?_, ?_⟩
  · intro h
    simp [resolveChildPath, h]
  · intro p hp hno
    simp [resolveChildPath, hp, hno]
  · intro p hp hpo
    simp [resolveChildPath, hp, hpo]
  · intro h1 h2
    rw [createFolder_success st u nid nmRaw (some pid) h1 h2]
  · intro hle hcol
    exact ⟨uploadFile_success_resp st u sz nid og k nf (some pid) hu hle hcol,
      rfl⟩

/-- Witness for create_parent_path_fallback: an absent parent yields the
root fallback path; an owned parent folder yields the nested path. -/
theorem create_parent_path_fallback_witness :
    resolveChildPath stEmpty 0 (some 99) "docs" = "/docs"
    ∧ resolveChildPath stFolderDocs 0 (some 1) "x" = "/docs/x" := by
  constructor
  · exact ((create_parent_path_fallback stEmpty 0 1 0 99 "docs" "o" "k"
      none rfl).1 rfl).trans (by decide)
  · exact ((create_parent_path_fallback stFolderDocs 0 1 0 1 "x" "o" "k"
      none rfl).2.2.1
      ⟨1, "docs", none, EntryKind.folder, 0, "/docs", none, none, 0, false⟩
      rfl rfl).trans (by decide)

/-- Counterexample to claim C5 as stated: creating a folder under parent id
99, which does not exist, does not fail NotFound: it succeeds and the new
folder silently gets the root fallback path /docs. -/
theorem create_parent_path_fallback_cex :
    (createFolder stEmpty 0 "docs" (some 99) 1).resp
      = .created ⟨1, "docs", none, EntryKind.folder, 0, "/docs", none,
          some 99, 0, false⟩ := by
  decide

/-- Claim C6 (amended): getDownloadUrl fails NotFound exactly when no entry
with the id exists at all (an already-soft-deleted entry is still found and
served), fails Forbidden when the owner differs, fails InvalidKind for
folders, and otherwise returns the signed-URL data built from the stored S3
key and original name. -/
theorem download_url_behavior (st : St) (u eid : Nat) :
    (findEntry st eid = none → getDownloadUrl st u eid = .notFound)
    ∧ (∀ f, findEntry st eid = some f → f.owner ≠ u →
        getDownloadUrl st u eid = .forbidden)
    ∧ (∀ f, findEntry st eid = some f → f.owner = u →
        f.kind = EntryKind.folder → getDownloadUrl st u eid = .invalidKind)
    ∧ (∀ f, findEntry st eid = some f → f.owner = u →
        f.kind = EntryKind.file →
        getDownloadUrl st u eid = .url f.s3Key f.originalName) := by
  refine ⟨?_, ?_, ?_, ?_⟩
  · intro h
    simp [getDownloadUrl, h]
  · intro f h hno
    simp [getDownloadUrl, h, hno]
  · intro f h ho hk
    simp [getDownloadUrl, h, ho, hk]
  · intro f h ho hk
    simp [getDownloadUrl, h, ho, hk]

/-- Witness for download_url_behavior: absent id gives NotFound, a folder
gives InvalidKind, an owned file gives its signed-URL data. -/
theorem download_url_behavior_witness :
    getDownloadUrl stEmpty 0 7 = DlResp.notFound
    ∧ getDownloadUrl stFolderDocs 0 1 = DlResp.invalidKind
    ∧ getDownloadUrl stFileDocs 0 1 = DlResp.url (some "kd") (some "docs") := by
  refine ⟨?_, ?_, ?_⟩
  · exact (download_url_behavior stEmpty 0 7).1 rfl
  · exact (download_url_behavior stFolderDocs 0 1).2.2.1
      ⟨1, "docs", none, EntryKind.folder, 0, "/docs", none, none, 0, false⟩
      rfl rfl rfl
  · exact (download_url_behavior stFileDocs 0 1).2.2.2
      ⟨1, "docs", some "docs", EntryKind.file, 3, "/docs", some "kd", none, 0, false⟩
      rfl rfl rfl

/-- Counterexample to claim C6 as stated: entry 1 of stDeletedDl is already
soft-deleted, yet getDownloadUrl serves its signed-URL data instead of
failing NotFound. -/
theorem download_url_behavior_cex :
    getDownloadUrl stDeletedDl 0 1 = DlResp.url (some "ka") (some "orig") := by
  decide

/-- Claim C7: name collisions are same-kind only among non-deleted siblings
of the same owner and parent: with a colliding folder name, createFolder
fails Conflict with no state change, while an upload of a file with that
same name under that same parent succeeds; symmetrically an upload colliding
with an existing file name fails Conflict. -/
theorem same_kind_collision_only (st : St) (u sz nid : Nat)
    (nm og k : String) (pf : Option Nat) (hu : hasUser st u = true)
    (hnm : jsTrim nm = nm) (hne : nm ≠ "") :
    (nameCollision st u pf nm EntryKind.folder = true →
      createFolder st u nm pf nid = ⟨st, .conflict⟩)
    ∧ (nameCollision st u pf nm EntryKind.folder = true →
      nameCollision st u pf nm EntryKind.file = false →
      ¬(usedOf st u + sz > MAX_STORAGE) →
      (uploadFile st u true sz og (some nm) pf nid k).resp
        = .uploaded (newFileEntry st u sz og (some nm) pf nid k)
            (usedOf st u + sz))
    ∧ (nameCollision st u pf nm EntryKind.file = true →
      ¬(usedOf st u + sz > MAX_STORAGE) →
      uploadFile st u true sz og (some nm) pf nid k = ⟨st, .conflict, []⟩) := by
  have hfn : jsFileName (some nm) og = nm := by
    simp [jsFileName, hne]
  refine ⟨?_, ?_, ?_⟩
  · intro hcol
    exact createFolder_conflict st u nid nm pf (by rw [hnm]; exact hne)
      (by rw [hnm]; exact hcol)
  · intro _ hfile hle
    exact uploadFile_success_resp st u sz nid og k (some nm) pf hu hle
      (by rw [hfn]; exact hfile)
  · intro hfile hle
    exact uploadFile_conflict st u sz nid og k (some nm) pf hle
      (by rw [hfn]; exact hfile)

/-- Witness for same_kind_collision_only: with folder docs present, a second
folder docs conflicts while the file docs uploads; with file docs present, a
second file docs conflicts. -/
theorem same_kind_collision_only_witness :
    createFolder stFolderDocs 0 "docs" none 2 = ⟨stFolderDocs, .conflict⟩
    ∧ (uploadFile stFolderDocs 0 true 4 "o" (some "docs") none 2 "kk").resp
        = .uploaded (newFileEntry stFolderDocs 0 4 "o" (some "docs") none 2 "kk") 4
    ∧ uploadFile stFileDocs 0 true 4 "o" (some "docs") none 2 "kk"
        = ⟨stFileDocs, .conflict, []⟩ := by
  refine ⟨?_, ?_, ?_⟩
  · exact (same_kind_collision_only stFolderDocs 0 4 2 "docs" "o" "kk" none
      rfl (by decide) (by decide)).1 (by decide)
  · exact (same_kind_collision_only stFolderDocs 0 4 2 "docs" "o" "kk" none
      rfl (by decide) (by decide)).2.1 (by decide) (by decide) (by decide)
  · exact (same_kind_collision_only stFileDocs 0 4 2 "docs" "o" "kk" none
      rfl (by decide) (by decide)).2.2 (by decide) (by decide)

/-- Claim C10: an upload request whose file exceeds the 100 MB multer limit
is rejected by the middleware before the handler runs: no entry is created,
no blob is stored, the counter is unchanged (the state is returned as is
with an empty event trace). -/
theorem upload_middleware_size_limit (st : St) (u sz nid : Nat)
    (og k : String) (nf : Option String) (pf : Option Nat)
    (h : sz > MULTER_FILE_SIZE_LIMIT) :
    uploadRequest st u true sz og nf pf nid k = (st, .fileTooLarge, []) := by
  simp [uploadRequest, h]

/-- Witness for upload_middleware_size_limit at 100 MB plus one byte. -/
theorem upload_middleware_size_limit_witness :
    uploadRequest stEmpty 0 true (MULTER_FILE_SIZE_LIMIT + 1) "big" none none
        1 "kk"
      = (stEmpty, .fileTooLarge, []) :=
  upload_middleware_size_limit stEmpty 0 (MULTER_FILE_SIZE_LIMIT + 1) 1 "big"
    "kk" none none (by decide)

end GDrive
